import Mathlib

/-!
Formal model of the doublespot backend's Space feature: the Prisma-backed
store, the repository pass-throughs, the five usecases, and the controller's
error-to-status mapping, together with proofs of the specification's claims.

Conventions of the shallow embedding:
* JavaScript numbers that reach the capacity validation are modelled as
  rationals; the check Number.isInteger corresponds to Rat.isInt.
* Thrown Error objects are modelled as Except.error carrying the message.
* The database clock is an explicit natural-number argument t; every write
  stamps the record with it.  Date.prototype.toISOString becomes an
  injective rendering of that clock value.
-/

/-- Entity of the Prisma model Space (schema in part_004): generated string
id, name, integer capacity, and the two server-managed timestamps. -/
structure Space where
  id : String
  name : String
  capacity : Int
  createdAt : Nat
  updatedAt : Nat
  deriving Repr, DecidableEq

/-- Wire DTO produced by toDTO in the usecase files: same fields with the
timestamps rendered as ISO-8601 strings. -/
structure SpaceDTO where
  id : String
  name : String
  capacity : Int
  createdAt : String
  updatedAt : String
  deriving Repr, DecidableEq

/-- Input of createSpaceUsecase.  The name is optional because the
controller forwards req.body?.name, which may be absent; the optional
chaining in the usecase handles that case. -/
structure CreateSpaceInput where
  name : Option String
  capacity : Rat
  deriving Repr, DecidableEq

/-- Runtime value of the update input's name field: the usecase tests
typeof input.name with three relevant outcomes -- undefined, a string, or
some non-string value. -/
inductive JSVal where
  | undef : JSVal
  | str : String → JSVal
  | nonstring : JSVal
  deriving Repr, DecidableEq

/-- Input of updateSpaceUsecase: an arbitrary runtime value for name and an
optional number for capacity (the controller maps absent capacity to
undefined, everything else through Number). -/
structure UpdateSpaceInput where
  name : JSVal
  capacity : Option Rat
  deriving Repr, DecidableEq

/-- Field assignment object built by updateSpaceUsecase before it calls the
repository. -/
structure UpdateData where
  name : Option String
  capacity : Option Int
  deriving Repr, DecidableEq

/-- State of the Space table plus the id-generator counter. -/
structure Store where
  spaces : List Space
  nextId : Nat
  deriving Repr, DecidableEq

/-- Modelled from the spec: the schema default cuid() generates an opaque,
unique, non-empty identifier.  Any injective generator of non-empty strings
is a faithful model; this one emits n+1 copies of a character. -/
def genId (n : Nat) : String :=
  String.mk (List.replicate (n + 1) 'c')

/-- Rendering of the abstract clock as an ISO-8601 string; models
Date.prototype.toISOString, which is injective on instants. -/
def toISOString (t : Nat) : String :=
  Nat.repr t ++ "Z"

/-- Modelled from Prisma's documented P2025 error text, thrown by
prisma.space.update when no record matches the where clause. -/
def prismaUpdateNotFoundMsg : String :=
  "An operation failed because it depends on one or more records that were required but not found. No record was found for an update."

/-- Modelled from Prisma's documented P2025 error text, thrown by
prisma.space.delete when no record matches the where clause. -/
def prismaDeleteNotFoundMsg : String :=
  "An operation failed because it depends on one or more records that were required but not found. No record was found for a delete."

/-- Store semantics of prisma.space.create: assign the generated id, stamp
createdAt and updatedAt with now, and append the row. -/
def prismaCreate (st : Store) (t : Nat) (nm : String) (cap : Int) : Space × Store :=
  let sp : Space :=
    { id := genId st.nextId, name := nm, capacity := cap, createdAt := t, updatedAt := t }
  (sp, { spaces := st.spaces ++ [sp], nextId := st.nextId + 1 })

/-- Store semantics of prisma.space.findUnique: the first row whose id
matches, or the absent marker. -/
def prismaFindUnique (st : Store) (id : String) : Option Space :=
  st.spaces.find? (fun s => s.id == id)

/-- Ordering used by the list query: descending creation time. -/
def byCreatedAtDesc (a b : Space) : Prop :=
  b.createdAt ≤ a.createdAt

instance : DecidableRel byCreatedAtDesc :=
  fun a b => Nat.decLe b.createdAt a.createdAt

instance : IsTotal Space byCreatedAtDesc :=
  ⟨fun a b => Nat.le_total b.createdAt a.createdAt⟩

instance : IsTrans Space byCreatedAtDesc :=
  ⟨fun _ _ _ hab hbc => Nat.le_trans hbc hab⟩

/-- Store semantics of prisma.space.findMany with orderBy createdAt desc. -/
def prismaFindManyDesc (st : Store) : List Space :=
  List.insertionSort byCreatedAtDesc st.spaces

/-- Store semantics of prisma.space.update: fail with the P2025 message if
no row matches, otherwise overwrite the provided fields, refresh updatedAt
(the schema marks it with the updatedAt attribute), and return the row. -/
def prismaUpdate (st : Store) (t : Nat) (id : String) (d : UpdateData) :
    Except String (Space × Store) :=
  match st.spaces.find? (fun s => s.id == id) with
  | none => .error prismaUpdateNotFoundMsg
  | some sp =>
    let sp2 : Space :=
      { sp with
        name := d.name.getD sp.name
        capacity := d.capacity.getD sp.capacity
        updatedAt := t }
    .ok (sp2, { st with spaces := st.spaces.map (fun s => if s.id == id then sp2 else s) })

/-- Store semantics of prisma.space.delete: fail with the P2025 message if
no row matches, otherwise remove the row and return it. -/
def prismaDelete (st : Store) (id : String) : Except String (Space × Store) :=
  match st.spaces.find? (fun s => s.id == id) with
  | none => .error prismaDeleteNotFoundMsg
  | some sp => .ok (sp, { st with spaces := st.spaces.filter (fun s => !(s.id == id)) })

namespace repo

/-- Embeds createSpace of space.repo.ts: pass-through to prisma.space.create. -/
def createSpace (st : Store) (t : Nat) (nm : String) (cap : Int) : Space × Store :=
  prismaCreate st t nm cap

/-- Embeds getSpaceById of space.repo.ts: pass-through to findUnique. -/
def getSpaceById (st : Store) (id : String) : Option Space :=
  prismaFindUnique st id

/-- Embeds listSpaces of space.repo.ts: pass-through to findMany ordered by
createdAt descending. -/
def listSpaces (st : Store) : List Space :=
  prismaFindManyDesc st

/-- Embeds updateSpace of space.repo.ts: pass-through to prisma.space.update. -/
def updateSpace (st : Store) (t : Nat) (id : String) (d : UpdateData) :
    Except String (Space × Store) :=
  prismaUpdate st t id d

/-- Embeds deleteSpace of space.repo.ts: pass-through to prisma.space.delete. -/
def deleteSpace (st : Store) (id : String) : Except String (Space × Store) :=
  prismaDelete st id

end repo

/-- Models JavaScript String.prototype.trim as used on the name fields:
drop leading and trailing whitespace.  Structural over the character list so
that concrete instances evaluate inside the kernel. -/
def jsTrim (s : String) : String :=
  String.mk (((s.toList.dropWhile Char.isWhitespace).reverse.dropWhile Char.isWhitespace).reverse)

/-- Embeds the toDTO helper shared by the usecase files. -/
def toDTO (sp : Space) : SpaceDTO :=
  { id := sp.id
    name := sp.name
    capacity := sp.capacity
    createdAt := toISOString sp.createdAt
    updatedAt := toISOString sp.updatedAt }

/-- Embeds createSpaceUsecase of create-space.usecase.ts: reject an absent
or blank name, then a non-integer or non-positive capacity, then persist the
trimmed name and validated capacity and return the DTO. -/
def createSpaceUsecase (st : Store) (t : Nat) (input : CreateSpaceInput) :
    Except String (SpaceDTO × Store) :=
  match input.name with
  | none => .error "name is required"
  | some nm =>
    if jsTrim nm = "" then .error "name is required"
    else if !input.capacity.isInt || decide (input.capacity ≤ 0) then
      .error "capacity must be a positive integer"
    else
      let r := repo.createSpace st t (jsTrim nm) input.capacity.num
      .ok (toDTO r.1, r.2)

/-- Embeds getSpaceUsecase of get-space.usecase.ts: reject an empty id,
report space not found on the absent marker, otherwise project to the DTO. -/
def getSpaceUsecase (st : Store) (id : String) : Except String SpaceDTO :=
  if id = "" then .error "id is required"
  else
    match repo.getSpaceById st id with
    | none => .error "space not found"
    | some sp => .ok (toDTO sp)

/-- Embeds listSpacesUsecase of list-spaces.usecase.ts: map the listed rows
to DTOs. -/
def listSpacesUsecase (st : Store) : List SpaceDTO :=
  (repo.listSpaces st).map toDTO

/-- Name-field step of updateSpaceUsecase: only a string value is examined;
a blank one is rejected, a non-string one contributes no field. -/
def nameField (v : JSVal) : Except String (Option String) :=
  match v with
  | .str s => if jsTrim s = "" then .error "name cannot be empty" else .ok (some (jsTrim s))
  | _ => .ok none

/-- Capacity-field step of updateSpaceUsecase: an undefined capacity
contributes no field; a defined one must be a positive integer. -/
def capacityField (c : Option Rat) : Except String (Option Int) :=
  match c with
  | none => .ok none
  | some q =>
    if !q.isInt || decide (q ≤ 0) then .error "capacity must be a positive integer"
    else .ok (some q.num)

/-- Embeds updateSpaceUsecase of update-space.usecase.ts: reject an empty
id, build the field assignment with per-field validation, reject an empty
assignment, then delegate to the repository update. -/
def updateSpaceUsecase (st : Store) (t : Nat) (id : String) (input : UpdateSpaceInput) :
    Except String (SpaceDTO × Store) :=
  if id = "" then .error "id is required"
  else
    match nameField input.name with
    | .error e => .error e
    | .ok n =>
      match capacityField input.capacity with
      | .error e => .error e
      | .ok c =>
        if n = none ∧ c = none then .error "no fields to update"
        else
          match repo.updateSpace st t id { name := n, capacity := c } with
          | .error e => .error e
          | .ok r => .ok (toDTO r.1, r.2)

/-- Embeds deleteSpaceUsecase of delete-space.usecase.ts: reject an empty
id, otherwise delegate to the repository delete and discard the row. -/
def deleteSpaceUsecase (st : Store) (id : String) : Except String Store :=
  if id = "" then .error "id is required"
  else
    match repo.deleteSpace st id with
    | .error e => .error e
    | .ok r => .ok r.2

/-- Resulting store of a create call as the controller observes it: the new
store on success, the old one when the usecase threw. -/
def createStore (st : Store) (t : Nat) (input : CreateSpaceInput) : Store :=
  match createSpaceUsecase st t input with
  | .ok r => r.2
  | .error _ => st

/-- Resulting store of an update call as the controller observes it. -/
def updateStore (st : Store) (t : Nat) (id : String) (input : UpdateSpaceInput) : Store :=
  match updateSpaceUsecase st t id input with
  | .ok r => r.2
  | .error _ => st

/-- Decides whether the pattern list is an initial segment of the text
list; auxiliary to the substring test. -/
def charsMatchAt : List Char → List Char → Bool
  | [], _ => true
  | _ :: _, [] => false
  | c :: cs, d :: ds => c == d && charsMatchAt cs ds

/-- Models JavaScript String.prototype.includes: some suffix of the text
starts with the pattern. -/
def containsSub (s pat : String) : Bool :=
  s.toList.tails.any (fun tl => charsMatchAt pat.toList tl)

/-- Embeds handleError of controller.ts: 404 for messages mentioning
not found, else 400 for the four validation substrings, else 500. -/
def handleError (msg : String) : Nat :=
  if containsSub msg "not found" then 404
  else if
      containsSub msg "required" || containsSub msg "must" ||
      containsSub msg "cannot" || containsSub msg "no fields" then 400
  else 500

/-- Embeds the health route of the committed src backend app.ts: status
code and JSON body fields, as a function of whether the database probe
succeeds. -/
def appHealthHandler (dbOk : Bool) : Nat × List (String × String) :=
  if dbOk then (200, [("ok", "true"), ("message", "Prisma is connected to MySQL")])
  else (500, [("ok", "false"), ("message", "Prisma connection failed")])

/-- Embeds the health route of app.ts as given in part_004 and
documents/backend-init.md: unconditional 200 with status, message and
timestamp fields. -/
def documentedHealthHandler (t : Nat) : Nat × List (String × String) :=
  (200, [("status", "active"), ("message", "Backend is running"),
         ("timestamp", toISOString t)])

/-- Well-formed store: every row's id came from the generator at an index
below the current counter.  Holds for every store reachable from the empty
one, and makes fresh ids genuinely fresh. -/
def Store.WF (st : Store) : Prop :=
  ∀ sp ∈ st.spaces, ∃ k, k < st.nextId ∧ sp.id = genId k

theorem genId_length (n : Nat) : (genId n).length = n + 1 := by
  simp [genId, String.length]

theorem genId_ne_empty (n : Nat) : genId n ≠ "" := by
  intro h
  have := congrArg String.length h
  rw [genId_length] at this
  simp [String.length] at this

theorem genId_inj {m n : Nat} (h : genId m = genId n) : m = n := by
  have := congrArg String.length h
  rwa [genId_length, genId_length, Nat.add_right_cancel_iff] at this

theorem find_append_last {α : Type} (p : α → Bool) (l : List α) (a : α)
    (h : ∀ x ∈ l, p x = false) (ha : p a = true) :
    (l ++ [a]).find? p = some a := by
  induction l with
  | nil => simp [List.find?, ha]
  | cons x xs ih =>
    have hx := h x (by simp)
    simp only [List.cons_append, List.find?, hx]
    exact ih (fun y hy => h y (by simp [hy]))

theorem ratIsInt_cast {c : Rat} (h : c.isInt = true) : (c.num : Rat) = c := by
  have hden : c.den = 1 := by simpa [Rat.isInt] using h
  exact Rat.coe_int_num_of_den_eq_one hden

/-- C1: for a name that is non-blank after trimming and an integral positive
capacity, createSpaceUsecase succeeds; the DTO carries the trimmed name, the
input capacity, a non-empty generated id and equal createdAt and updatedAt,
and a record with the trimmed name and that id is persisted. -/
theorem create_valid_returns_dto (st : Store) (t : Nat) (nm : String) (c : Rat)
    (hn : jsTrim nm ≠ "") (hi : c.isInt = true) (hp : 0 < c) :
    ∃ dto st2,
      createSpaceUsecase st t { name := some nm, capacity := c } = .ok (dto, st2) ∧
      dto.name = jsTrim nm ∧ dto.capacity = c.num ∧ (c.num : Rat) = c ∧
      dto.id ≠ "" ∧ dto.createdAt = dto.updatedAt ∧
      ∃ sp ∈ st2.spaces, sp.id = dto.id ∧ sp.name = jsTrim nm ∧ sp.capacity = c.num := by
  have h2 : (!c.isInt || decide (c ≤ 0)) = false := by
    simp [hi, not_le, hp]
  refine ⟨toDTO (repo.createSpace st t (jsTrim nm) c.num).1,
    (repo.createSpace st t (jsTrim nm) c.num).2, ?_, rfl, rfl, ratIsInt_cast hi, ?_, rfl, ?_⟩
  · simp [createSpaceUsecase, hn, h2]
  · exact genId_ne_empty st.nextId
  · exact ⟨(repo.createSpace st t (jsTrim nm) c.num).1,
      by simp [repo.createSpace, prismaCreate], rfl, rfl, rfl⟩

/-- Witness for C1 at a concrete store and input. -/
theorem create_valid_returns_dto_witness :
    jsTrim " Room A " ≠ "" ∧ (10 : Rat).isInt = true ∧ (0 : Rat) < 10 ∧
    (∃ dto st2,
      createSpaceUsecase { spaces := [], nextId := 0 } 5
          { name := some " Room A ", capacity := 10 } = .ok (dto, st2) ∧
      dto.name = jsTrim " Room A " ∧ dto.capacity = (10 : Rat).num ∧
      (((10 : Rat).num : Rat) = 10) ∧
      dto.id ≠ "" ∧ dto.createdAt = dto.updatedAt ∧
      ∃ sp ∈ st2.spaces, sp.id = dto.id ∧ sp.name = jsTrim " Room A " ∧
        sp.capacity = (10 : Rat).num) :=
  ⟨by decide, by decide, by decide,
    create_valid_returns_dto { spaces := [], nextId := 0 } 5 " Room A " 10
      (by decide) (by decide) (by decide)⟩

/-- C2: a blank or missing name, or a non-integral or non-positive capacity,
makes createSpaceUsecase fail with one of the two validation messages; the
error is independent of the store state and clock (no store access), and the
observed store is unchanged. -/
theorem create_invalid_fails (st : Store) (t : Nat) (input : CreateSpaceInput)
    (h : input.name = none ∨ (∃ s, input.name = some s ∧ jsTrim s = "") ∨
         input.capacity ≤ 0 ∨ input.capacity.isInt = false) :
    ∃ m, createSpaceUsecase st t input = .error m ∧
      (m = "name is required" ∨ m = "capacity must be a positive integer") ∧
      (∀ st2 t2, createSpaceUsecase st2 t2 input = .error m) ∧
      createStore st t input = st := by
  cases hname : input.name with
  | none =>
    refine ⟨"name is required", ?_, Or.inl rfl, ?_, ?_⟩
    · simp [createSpaceUsecase, hname]
    · intro st2 t2; simp [createSpaceUsecase, hname]
    · simp [createStore, createSpaceUsecase, hname]
  | some s =>
    by_cases hs : jsTrim s = ""
    · refine ⟨"name is required", ?_, Or.inl rfl, ?_, ?_⟩
      · simp [createSpaceUsecase, hname, hs]
      · intro st2 t2; simp [createSpaceUsecase, hname, hs]
      · simp [createStore, createSpaceUsecase, hname, hs]
    · have hcap : (!input.capacity.isInt || decide (input.capacity ≤ 0)) = true := by
        rcases h with h | ⟨s2, hs2, he⟩ | h | h
        · rw [hname] at h; exact absurd h (by simp)
        · rw [hname] at hs2
          have : s = s2 := by injection hs2
          exact absurd (this ▸ he) hs
        · simp [h]
        · simp [h]
      refine ⟨"capacity must be a positive integer", ?_, Or.inr rfl, ?_, ?_⟩
      · simp [createSpaceUsecase, hname, hs, hcap]
      · intro st2 t2; simp [createSpaceUsecase, hname, hs, hcap]
      · simp [createStore, createSpaceUsecase, hname, hs, hcap]

/-- Witness for C2 at a whitespace-only name. -/
theorem create_invalid_fails_witness :
    ((some "   " : Option String) = none ∨
      (∃ s, (some "   " : Option String) = some s ∧ jsTrim s = "") ∨
      (5 : Rat) ≤ 0 ∨ (5 : Rat).isInt = false) ∧
    (∃ m, createSpaceUsecase { spaces := [], nextId := 0 } 0
        { name := some "   ", capacity := 5 } = .error m ∧
      (m = "name is required" ∨ m = "capacity must be a positive integer") ∧
      (∀ st2 t2, createSpaceUsecase st2 t2 { name := some "   ", capacity := 5 } = .error m) ∧
      createStore { spaces := [], nextId := 0 } 0 { name := some "   ", capacity := 5 } =
        { spaces := [], nextId := 0 }) :=
  ⟨Or.inr (Or.inl ⟨"   ", rfl, by decide⟩),
    create_invalid_fails { spaces := [], nextId := 0 } 0
      { name := some "   ", capacity := 5 }
      (Or.inr (Or.inl ⟨"   ", rfl, by decide⟩))⟩

/-- C3: handleError classifies solely by the message text: a message
containing not found gives 404; otherwise a message containing one of the
four validation substrings gives 400; anything else gives 500. -/
theorem handleError_message_classification (msg : String) :
    (containsSub msg "not found" = true → handleError msg = 404) ∧
    (containsSub msg "not found" = false →
      (containsSub msg "required" || containsSub msg "must" ||
        containsSub msg "cannot" || containsSub msg "no fields") = true →
      handleError msg = 400) ∧
    (containsSub msg "not found" = false →
      (containsSub msg "required" || containsSub msg "must" ||
        containsSub msg "cannot" || containsSub msg "no fields") = false →
      handleError msg = 500) := by
  refine ⟨?_, ?_, ?_⟩
  · intro h1; simp [handleError, h1]
  · intro h1 h2; simp [handleError, h1, h2]
  · intro h1 h2; simp [handleError, h1, h2]

/-- Witness for C3 on one message of each class. -/
theorem handleError_message_classification_witness :
    (containsSub "space not found" "not found" = true ∧
      handleError "space not found" = 404) ∧
    (containsSub "name is required" "not found" = false ∧
      (containsSub "name is required" "required" || containsSub "name is required" "must" ||
        containsSub "name is required" "cannot" ||
        containsSub "name is required" "no fields") = true ∧
      handleError "name is required" = 400) ∧
    (containsSub "boom" "not found" = false ∧
      (containsSub "boom" "required" || containsSub "boom" "must" ||
        containsSub "boom" "cannot" || containsSub "boom" "no fields") = false ∧
      handleError "boom" = 500) :=
  ⟨⟨by decide, (handleError_message_classification "space not found").1 (by decide)⟩,
   ⟨by decide, by decide,
     (handleError_message_classification "name is required").2.1 (by decide) (by decide)⟩,
   ⟨by decide, by decide,
     (handleError_message_classification "boom").2.2 (by decide) (by decide)⟩⟩

/-- Concrete record used by the witnesses: id generated at counter 0. -/
def roomA : Space :=
  { id := "c", name := "Room A", capacity := 10, createdAt := 3, updatedAt := 3 }

/-- Concrete one-record store used by the witnesses. -/
def demoStore : Store :=
  { spaces := [roomA], nextId := 1 }

/-- C4: an update supplying only a positive integral capacity on an existing
record changes exactly that record's capacity and updatedAt, returning a DTO
that keeps the prior id, name and createdAt; each provided field undergoes
the create validation; and an update providing neither field fails with the
no-fields message independently of the store, leaving the store unchanged. -/
theorem update_capacity_only_frame (st : Store) (t : Nat) (id : String) (sp : Space) (c : Rat)
    (hid : id ≠ "") (hfind : prismaFindUnique st id = some sp)
    (hi : c.isInt = true) (hp : 0 < c) :
    (updateSpaceUsecase st t id { name := JSVal.undef, capacity := some c } =
      .ok ({ id := sp.id, name := sp.name, capacity := c.num,
             createdAt := toISOString sp.createdAt, updatedAt := toISOString t },
           { spaces := st.spaces.map (fun s =>
               if s.id == id then { sp with capacity := c.num, updatedAt := t } else s),
             nextId := st.nextId })) ∧
    (∀ s2, jsTrim s2 = "" →
      updateSpaceUsecase st t id { name := JSVal.str s2, capacity := some c } =
        .error "name cannot be empty") ∧
    (∀ c2 : Rat, (c2 ≤ 0 ∨ c2.isInt = false) →
      updateSpaceUsecase st t id { name := JSVal.undef, capacity := some c2 } =
        .error "capacity must be a positive integer") ∧
    (∀ st2 t2, updateSpaceUsecase st2 t2 id { name := JSVal.undef, capacity := none } =
      .error "no fields to update") ∧
    updateStore st t id { name := JSVal.undef, capacity := none } = st := by
  have habs : st.spaces.find? (fun s => s.id == id) = some sp := hfind
  have hcap : (!c.isInt || decide (c ≤ 0)) = false := by simp [hi, not_le, hp]
  refine ⟨?_, ?_, ?_, ?_, ?_⟩
  · simp [updateSpaceUsecase, hid, nameField, capacityField, hcap,
      repo.updateSpace, prismaUpdate, habs, toDTO]
  · intro s2 h
    simp [updateSpaceUsecase, hid, nameField, h]
  · intro c2 h
    have hcap2 : (!c2.isInt || decide (c2 ≤ 0)) = true := by
      rcases h with h | h
      · simp [h]
      · simp [h]
    simp [updateSpaceUsecase, hid, nameField, capacityField, hcap2]
  · intro st2 t2
    simp [updateSpaceUsecase, hid, nameField, capacityField]
  · simp [updateStore, updateSpaceUsecase, hid, nameField, capacityField]

/-- Witness for C4 on the one-record store. -/
theorem update_capacity_only_frame_witness :
    ("c" : String) ≠ "" ∧ prismaFindUnique demoStore "c" = some roomA ∧
    (20 : Rat).isInt = true ∧ (0 : Rat) < 20 ∧
    ((updateSpaceUsecase demoStore 7 "c" { name := JSVal.undef, capacity := some 20 } =
      .ok ({ id := roomA.id, name := roomA.name, capacity := (20 : Rat).num,
             createdAt := toISOString roomA.createdAt, updatedAt := toISOString 7 },
           { spaces := demoStore.spaces.map (fun s =>
               if s.id == "c" then { roomA with capacity := (20 : Rat).num, updatedAt := 7 } else s),
             nextId := demoStore.nextId })) ∧
    (∀ s2, jsTrim s2 = "" →
      updateSpaceUsecase demoStore 7 "c" { name := JSVal.str s2, capacity := some 20 } =
        .error "name cannot be empty") ∧
    (∀ c2 : Rat, (c2 ≤ 0 ∨ c2.isInt = false) →
      updateSpaceUsecase demoStore 7 "c" { name := JSVal.undef, capacity := some c2 } =
        .error "capacity must be a positive integer") ∧
    (∀ st2 t2, updateSpaceUsecase st2 t2 "c" { name := JSVal.undef, capacity := none } =
      .error "no fields to update") ∧
    updateStore demoStore 7 "c" { name := JSVal.undef, capacity := none } = demoStore) :=
  ⟨by decide, by decide, by decide, by decide,
    update_capacity_only_frame demoStore 7 "c" roomA 20
      (by decide) (by decide) (by decide) (by decide)⟩

/-- C10: an update whose name field holds a non-string value silently
ignores that field: with no capacity the call fails with the no-fields
message, and with any capacity the call behaves exactly as if the name field
were absent. -/
theorem update_nonstring_name_ignored (st : Store) (t : Nat) (id : String) (hid : id ≠ "") :
    updateSpaceUsecase st t id { name := JSVal.nonstring, capacity := none } =
      .error "no fields to update" ∧
    ∀ c, updateSpaceUsecase st t id { name := JSVal.nonstring, capacity := c } =
      updateSpaceUsecase st t id { name := JSVal.undef, capacity := c } := by
  constructor
  · simp [updateSpaceUsecase, hid, nameField, capacityField]
  · intro c
    simp only [updateSpaceUsecase, nameField]

/-- Witness for C10 on the one-record store. -/
theorem update_nonstring_name_ignored_witness :
    ("c" : String) ≠ "" ∧
    (updateSpaceUsecase demoStore 7 "c" { name := JSVal.nonstring, capacity := none } =
      .error "no fields to update" ∧
    ∀ c, updateSpaceUsecase demoStore 7 "c" { name := JSVal.nonstring, capacity := c } =
      updateSpaceUsecase demoStore 7 "c" { name := JSVal.undef, capacity := c }) :=
  ⟨by decide, update_nonstring_name_ignored demoStore 7 "c" (by decide)⟩

/-- C5: on a well-formed store, reading back the DTO returned by a valid
create through getSpaceUsecase, with no intervening write, yields a DTO
equal to the create result. -/
theorem create_then_get_roundtrip (st : Store) (t : Nat) (nm : String) (c : Rat)
    (hwf : st.WF) (hn : jsTrim nm ≠ "") (hi : c.isInt = true) (hp : 0 < c) :
    ∃ dto st2,
      createSpaceUsecase st t { name := some nm, capacity := c } = .ok (dto, st2) ∧
      getSpaceUsecase st2 dto.id = .ok dto := by
  have hcap : (!c.isInt || decide (c ≤ 0)) = false := by simp [hi, not_le, hp]
  refine ⟨toDTO (repo.createSpace st t (jsTrim nm) c.num).1,
    (repo.createSpace st t (jsTrim nm) c.num).2, ?_, ?_⟩
  · simp [createSpaceUsecase, hn, hcap]
  · have hold : ∀ x ∈ st.spaces, (x.id == genId st.nextId) = false := by
      intro x hx
      rcases hwf x hx with ⟨k, hk, hidk⟩
      simp only [beq_eq_false_iff_ne, ne_eq, hidk]
      intro he
      exact absurd (genId_inj he) (Nat.ne_of_lt hk)
    have hne : (toDTO (repo.createSpace st t (jsTrim nm) c.num).1).id ≠ "" :=
      genId_ne_empty st.nextId
    have hfind2 : repo.getSpaceById (repo.createSpace st t (jsTrim nm) c.num).2
        (toDTO (repo.createSpace st t (jsTrim nm) c.num).1).id =
        some (repo.createSpace st t (jsTrim nm) c.num).1 := by
      show (st.spaces ++ [(repo.createSpace st t (jsTrim nm) c.num).1]).find?
          (fun s => s.id == genId st.nextId) =
        some (repo.createSpace st t (jsTrim nm) c.num).1
      exact find_append_last _ st.spaces _ hold (by simp [repo.createSpace, prismaCreate])
    unfold getSpaceUsecase
    rw [if_neg hne, hfind2]

/-- Witness for C5 on the one-record well-formed store. -/
theorem create_then_get_roundtrip_witness :
    demoStore.WF ∧ jsTrim " Room B " ≠ "" ∧ (4 : Rat).isInt = true ∧ (0 : Rat) < 4 ∧
    (∃ dto st2,
      createSpaceUsecase demoStore 9 { name := some " Room B ", capacity := 4 } =
        .ok (dto, st2) ∧
      getSpaceUsecase st2 dto.id = .ok dto) :=
  ⟨by
      intro sp h
      simp only [demoStore, List.mem_singleton] at h
      exact ⟨0, by decide, by simp [h, roomA, genId]⟩,
    by decide, by decide, by decide,
    create_then_get_roundtrip demoStore 9 " Room B " 4
      (by
        intro sp h
        simp only [demoStore, List.mem_singleton] at h
        exact ⟨0, by decide, by simp [h, roomA, genId]⟩)
      (by decide) (by decide) (by decide)⟩

/-- C6: listSpacesUsecase returns exactly the stored records as DTOs in an
order sorted by creation time descending, is empty on the empty store, is
total, and two calls without intervening writes agree. -/
theorem list_returns_sorted_desc (st : Store) :
    ∃ l : List Space,
      listSpacesUsecase st = l.map toDTO ∧ l.Perm st.spaces ∧
      l.Sorted byCreatedAtDesc ∧
      (st.spaces = [] → listSpacesUsecase st = []) ∧
      listSpacesUsecase st = listSpacesUsecase st := by
  refine ⟨prismaFindManyDesc st, rfl, ?_, ?_, ?_, rfl⟩
  · exact List.perm_insertionSort byCreatedAtDesc st.spaces
  · exact List.sorted_insertionSort byCreatedAtDesc st.spaces
  · intro h
    simp [listSpacesUsecase, repo.listSpaces, prismaFindManyDesc, h]

/-- Witness for C6 on the one-record store. -/
theorem list_returns_sorted_desc_witness :
    ∃ l : List Space,
      listSpacesUsecase demoStore = l.map toDTO ∧ l.Perm demoStore.spaces ∧
      l.Sorted byCreatedAtDesc ∧
      (demoStore.spaces = [] → listSpacesUsecase demoStore = []) ∧
      listSpacesUsecase demoStore = listSpacesUsecase demoStore :=
  list_returns_sorted_desc demoStore

/-- C7: on an identifier with no record, getSpaceUsecase fails with the
space-not-found message, while update and delete propagate the store's own
record-not-found failure unchanged; each message is mapped to 404. -/
theorem missing_record_fails_not_found (st : Store) (t : Nat) (id : String) (c : Rat)
    (hid : id ≠ "") (habs : prismaFindUnique st id = none)
    (hi : c.isInt = true) (hp : 0 < c) :
    (getSpaceUsecase st id = .error "space not found" ∧
      handleError "space not found" = 404) ∧
    (updateSpaceUsecase st t id { name := JSVal.undef, capacity := some c } =
        .error prismaUpdateNotFoundMsg ∧
      handleError prismaUpdateNotFoundMsg = 404) ∧
    (deleteSpaceUsecase st id = .error prismaDeleteNotFoundMsg ∧
      handleError prismaDeleteNotFoundMsg = 404) := by
  have habs2 : st.spaces.find? (fun s => s.id == id) = none := habs
  have hcap : (!c.isInt || decide (c ≤ 0)) = false := by simp [hi, not_le, hp]
  refine ⟨⟨?_, by decide⟩, ⟨?_, by decide⟩, ⟨?_, by decide⟩⟩
  · simp [getSpaceUsecase, hid, repo.getSpaceById, prismaFindUnique, habs2]
  · simp [updateSpaceUsecase, hid, nameField, capacityField, hcap,
      repo.updateSpace, prismaUpdate, habs2]
  · simp [deleteSpaceUsecase, hid, repo.deleteSpace, prismaDelete, habs2]

/-- Witness for C7 on an identifier absent from the one-record store. -/
theorem missing_record_fails_not_found_witness :
    ("zz" : String) ≠ "" ∧ prismaFindUnique demoStore "zz" = none ∧
    (2 : Rat).isInt = true ∧ (0 : Rat) < 2 ∧
    ((getSpaceUsecase demoStore "zz" = .error "space not found" ∧
      handleError "space not found" = 404) ∧
    (updateSpaceUsecase demoStore 7 "zz" { name := JSVal.undef, capacity := some 2 } =
        .error prismaUpdateNotFoundMsg ∧
      handleError prismaUpdateNotFoundMsg = 404) ∧
    (deleteSpaceUsecase demoStore "zz" = .error prismaDeleteNotFoundMsg ∧
      handleError prismaDeleteNotFoundMsg = 404)) :=
  ⟨by decide, by decide, by decide, by decide,
    missing_record_fails_not_found demoStore 7 "zz" 2
      (by decide) (by decide) (by decide) (by decide)⟩

/-- C8: the committed app.ts health handler answers a successful probe with
200 but a body whose fields are ok and message only, not the documented
shape, whereas the handler recorded in part_004 and backend-init.md answers
200 with exactly the status, message and timestamp fields. -/
theorem health_endpoint_body_diverges :
    (appHealthHandler true).1 = 200 ∧
    (appHealthHandler true).2.map Prod.fst = ["ok", "message"] ∧
    (appHealthHandler true).2.map Prod.fst ≠ ["status", "message", "timestamp"] ∧
    ∀ t, (documentedHealthHandler t).1 = 200 ∧
      (documentedHealthHandler t).2.map Prod.fst = ["status", "message", "timestamp"] :=
  ⟨rfl, rfl, by decide, fun t => ⟨rfl, rfl⟩⟩

/-- C9: handleError tests the not-found substring first, so any message
containing not found is answered 404 and never 400, even when it also
contains one of the 400 substrings, as the store's record-not-found message
does. -/
theorem notFound_checked_before_badRequest (msg : String)
    (h : containsSub msg "not found" = true) :
    handleError msg = 404 ∧ handleError msg ≠ 400 := by
  simp [handleError, h]

/-- Witness for C9 at the store's record-not-found message, which contains
both the not-found substring and the 400 substring required. -/
theorem notFound_checked_before_badRequest_witness :
    containsSub prismaUpdateNotFoundMsg "not found" = true ∧
    containsSub prismaUpdateNotFoundMsg "required" = true ∧
    (handleError prismaUpdateNotFoundMsg = 404 ∧ handleError prismaUpdateNotFoundMsg ≠ 400) :=
  ⟨by decide, by decide, notFound_checked_before_badRequest prismaUpdateNotFoundMsg (by decide)⟩
